import Mathlib

/-!
# Verification of the Plan2Rendering image-iteration application

Shallow embedding of the two source components:

* the Generation Client (`src/services/gemini.ts`, `generateImage`), and
* the Iteration Store / UI state machine (`App.tsx`: `handleGenerate`,
  `clearSourceImage`, `activeImageUrl`, plus the state-setting UI actions).

JavaScript values are modelled as follows: `string | null` becomes
`Option String` (`none` = `null`/`undefined`); JS truthiness of such a value
is `truthyS` (both `null` and the empty string are falsy); `Date.now()`
becomes an explicit `Nat` input (one per call site, since each call may
return a different value); a thrown exception becomes an `Except` error.
-/

deriving instance DecidableEq for Except

namespace Plan2Rendering

/-- JS `String.prototype.split` with a single-character separator, on the
character list: splits at every occurrence of the separator, keeping empty
segments, and returns `[whole]` when the separator never occurs (so the
result is always non-empty). -/
def splitChar (sep : Char) : List Char → List (List Char)
  | [] => [[]]
  | c :: rest =>
    match splitChar sep rest with
    | [] => [[]]
    | h :: t => if c = sep then [] :: h :: t else (c :: h) :: t

/-- JS `s.split(sep)` for a one-character separator. -/
def jsSplit (s : String) (sep : Char) : List String :=
  (splitChar sep s.data).map (fun l => ⟨l⟩)

/-- JS `String.prototype.trim`: strip leading and trailing whitespace
(modelled with `Char.isWhitespace`, which covers the ASCII part of the JS
WhiteSpace/LineTerminator set). -/
def jsTrim (s : String) : String :=
  ⟨((s.data.dropWhile Char.isWhitespace).reverse.dropWhile
      Char.isWhitespace).reverse⟩

/-- JS truthiness of a `string | null | undefined` value: `null`/`undefined`
and the empty string are falsy. -/
def truthyS : Option String → Bool
  | none => false
  | some s => s != ""

/-- Stringification a JS template literal applies to an optional value:
`undefined` prints as `"undefined"`. -/
def jsStr : Option String → String
  | none => "undefined"
  | some s => s

/-! ## Generation Client (`src/services/gemini.ts`) -/

/-- `inlineData` object of the external API: a mime type and a base64
payload (the payload may be `undefined` in a request the client builds
from a comma-less data URI). -/
structure InlineData where
  mimeType : String
  data : Option String
deriving DecidableEq, Repr

/-- One part of a response candidate: `inlineData` and/or `text` fields,
each possibly absent. -/
structure RespPart where
  inlineData : Option InlineData
  text : Option String
deriving DecidableEq, Repr

/-- `content` of a candidate; `parts` may be absent (the code reads
`candidates[0].content.parts || []`). -/
structure Content where
  parts : Option (List RespPart)
deriving DecidableEq, Repr

/-- One candidate of a response. -/
structure Candidate where
  content : Content
deriving DecidableEq, Repr

/-- A response of the external endpoint: `candidates` may be absent. -/
structure GenResponse where
  candidates : Option (List Candidate)
deriving DecidableEq, Repr

/-- The distinct failures `generateImage` can produce.  `parseError` is the
`TypeError` thrown by the base-image string parsing itself
(`prefix.split(':')[1]` being `undefined`); the other two are the
`Error`s thrown explicitly by the code. -/
inductive GenError where
  | parseError
  | noCandidates
  | noImageInResponse
deriving DecidableEq, Repr

/-- One part of the request `generateImage` builds: an inline-image part or
a text part. -/
inductive ReqPart where
  | inline (data : Option String) (mimeType : String)
  | text (s : String)
deriving DecidableEq, Repr

/-- The request submitted to the external endpoint: fixed model identifier
plus the ordered part list. -/
structure GenRequest where
  model : String
  parts : List ReqPart
deriving DecidableEq, Repr

/-- The base-image decoding of `generateImage`:
`const [prefix, base64Data] = baseImage.split(','); const mimeType =
prefix.split(':')[1].split(';')[0]`.  Returns `none` exactly when the JS
code throws (`prefix.split(':')[1]` is `undefined` because the segment
before the first comma contains no `':'`); otherwise returns the mime type
and the (possibly absent) base64 payload. -/
def splitBaseImage (b : String) : Option (String × Option String) :=
  let segs := jsSplit b ','
  let seg0 := segs.headD ""
  let b64 := segs[1]?
  match (jsSplit seg0 ':')[1]? with
  | none => none
  | some m1 => some ((jsSplit m1 ';').headD "", b64)

/-- Request construction of `generateImage` (lines 6–21): an optional
inline-image part (present when `baseImage` is truthy and its parsing
succeeds) followed by exactly one text part carrying the prompt.
`.error .parseError` models the exception thrown by the parsing. -/
def buildParts (prompt : String) (baseImage : Option String) :
    Except GenError (List ReqPart) :=
  if truthyS baseImage then
    match splitBaseImage (baseImage.getD "") with
    | none => .error .parseError
    | some (m, d) => .ok [.inline d m, .text prompt]
  else
    .ok [.text prompt]

/-- Response handling of `generateImage` (lines 30–41): no candidates →
`"No candidates returned"`; otherwise scan the first candidate's parts for
the first one with a truthy `inlineData` and re-encode it as a data URI;
none found → `"No image found in the response"`. -/
def extractImage (r : GenResponse) : Except GenError String :=
  match r.candidates with
  | none => .error .noCandidates
  | some [] => .error .noCandidates
  | some (c :: _) =>
    match (c.content.parts.getD []).findSome? (fun p => p.inlineData) with
    | some d => .ok ("data:" ++ d.mimeType ++ ";base64," ++ jsStr d.data)
    | none => .error .noImageInResponse

/-- The whole of `generateImage`, with the external endpoint abstracted as
a function `respond` from requests to responses.  The first component of
the result is the list of requests actually submitted (empty when the
base-image parsing throws first, a single request otherwise). -/
def generateImage (prompt : String) (baseImage : Option String)
    (respond : GenRequest → GenResponse) :
    List GenRequest × Except GenError String :=
  match buildParts prompt baseImage with
  | .error e => ([], .error e)
  | .ok ps =>
    let req : GenRequest := ⟨"gemini-2.5-flash-image", ps⟩
    ([req], extractImage (respond req))

example :
    splitBaseImage "data:image/png;base64,AAA" = some ("image/png", some "AAA") := by
  decide

example : splitBaseImage "not-a-data-uri" = none := by decide

example :
    extractImage ⟨some [⟨⟨some [⟨some ⟨"image/png", some "Zm9v"⟩, none⟩]⟩⟩]⟩ =
      .ok "data:image/png;base64,Zm9v" := by
  decide

/-! ## Iteration Store (`App.tsx`) -/

/-- `DesignIteration` from `types.ts` as used by `App.tsx`. -/
structure DesignIteration where
  id : String
  imageUrl : String
  prompt : String
  timestamp : Nat
  parentId : Option String
deriving DecidableEq, Repr

/-- The React state cells of `App` that the claims are about (the file-input
ref is presentation only). -/
structure AppState where
  sourceImage : Option String
  iterations : List DesignIteration
  activeId : Option String
  prompt : String
  isGenerating : Bool
  error : Option String
deriving DecidableEq, Repr

/-- The initial state of `App`: every `useState` initialiser. -/
def initState : AppState :=
  { sourceImage := none, iterations := [], activeId := none,
    prompt := "", isGenerating := false, error := none }

/-- `clearSourceImage` (lines 47–52): drop the source image; if the source
was active, reselect `iterations[0].id` when the list is non-empty, else
`null`. -/
def clearSourceImage (s : AppState) : AppState :=
  let s1 := { s with sourceImage := none }
  if s.activeId == some "source" then
    { s1 with activeId :=
        match s.iterations with
        | [] => none
        | it :: _ => some it.id }
  else s1

/-- The `baseImage` selection at the top of `handleGenerate` (lines 64–74),
including the JS truthiness tests (`activeId === 'source' && sourceImage`,
`else if (activeId)`, `else if (sourceImage)`). -/
def computeBaseImage (s : AppState) : Option String :=
  if s.activeId == some "source" && truthyS s.sourceImage then
    s.sourceImage
  else if truthyS s.activeId then
    match s.iterations.find? (fun i => some i.id == s.activeId) with
    | some it => some it.imageUrl
    | none => none
  else if truthyS s.sourceImage then
    s.sourceImage
  else none

/-- `handleGenerate` (lines 54–94) over one completed call.  `genResult` is
the outcome of `await generateImage(...)` (`.ok url` a successful return,
`.error msg` a thrown error's `message`); `nowId` and `nowTs` are the
values of the two separate `Date.now()` calls in the iteration literal.
The second component records the arguments of the `generateImage` call when
one was made (`none` = the client was never invoked).  The returned state
folds in the `finally { setIsGenerating(false) }`. -/
def handleGenerate (s : AppState) (genResult : Except String String)
    (nowId nowTs : Nat) : AppState × Option (String × Option String) :=
  if jsTrim s.prompt == "" then
    ({ s with error := some "Please enter a prompt." }, none)
  else
    let base := computeBaseImage s
    match genResult with
    | .ok newImageUrl =>
      let newIteration : DesignIteration :=
        { id := Nat.repr nowId, imageUrl := newImageUrl, prompt := s.prompt,
          timestamp := nowTs,
          parentId := if truthyS s.activeId then s.activeId else none }
      ({ s with iterations := newIteration :: s.iterations,
                activeId := some newIteration.id,
                isGenerating := false, error := none },
       some (s.prompt, base))
    | .error msg =>
      ({ s with error := some (if msg == "" then "Failed to generate image." else msg),
                isGenerating := false },
       some (s.prompt, base))

/-- The derived `activeImageUrl` (lines 96–98), i.e. `resolveActiveImage()`:
source selected → source image; otherwise the selected iteration's image,
falling back to the source image when the id is missing (`?.imageUrl ||
sourceImage`, so an empty `imageUrl` also falls back). -/
def activeImageUrl (s : AppState) : Option String :=
  if s.activeId == some "source" then s.sourceImage
  else
    match s.iterations.find? (fun i => some i.id == s.activeId) with
    | some it => if it.imageUrl == "" then s.sourceImage else some it.imageUrl
    | none => s.sourceImage

/-- One UI-triggered transition of the store, restricted to the actions the
rendered interface exposes: uploading a source image (lines 29–45's
`onload`), clearing it, one completed generation call, selecting the source
thumbnail, selecting an iteration thumbnail that is in the list, and
editing the prompt text. -/
inductive Step : AppState → AppState → Prop where
  | upload {s : AppState} (img : String) :
      Step s { s with sourceImage := some img, activeId := some "source" }
  | clearSource {s : AppState} : Step s (clearSourceImage s)
  | generate {s : AppState} (genResult : Except String String)
      (nowId nowTs : Nat) :
      Step s (handleGenerate s genResult nowId nowTs).1
  | selectSource {s : AppState} : Step s { s with activeId := some "source" }
  | selectIteration {s : AppState} (it : DesignIteration)
      (h : it ∈ s.iterations) : Step s { s with activeId := some it.id }
  | setPrompt {s : AppState} (p : String) : Step s { s with prompt := p }

/-- The states the application can reach from its initial state. -/
inductive Reachable : AppState → Prop where
  | init : Reachable initState
  | step {s s' : AppState} : Reachable s → Step s s' → Reachable s'

/-! ## Helper lemmas -/

/-- Every character `Nat.toDigitsCore` accumulates (base 10) is a digit. -/
theorem toDigitsCore_isDigit (fuel n : Nat) (ds : List Char)
    (hds : ∀ c ∈ ds, c.isDigit = true) (c : Char)
    (hc : c ∈ Nat.toDigitsCore 10 fuel n ds) : c.isDigit = true := by
  induction fuel generalizing n ds with
  | zero =>
    simp only [Nat.toDigitsCore] at hc
    exact hds c hc
  | succ fuel ih =>
    simp only [Nat.toDigitsCore] at hc
    by_cases h : n / 10 = 0
    · rw [if_pos h] at hc
      rcases List.mem_cons.mp hc with h1 | h1
      · subst h1
        have : n % 10 < 10 := Nat.mod_lt _ (by decide)
        interval_cases hm : (n % 10) <;> decide
      · exact hds c h1
    · rw [if_neg h] at hc
      refine ih _ _ ?_ hc
      intro c' hc'
      rcases List.mem_cons.mp hc' with h1 | h1
      · subst h1
        have : n % 10 < 10 := Nat.mod_lt _ (by decide)
        interval_cases hm : (n % 10) <;> decide
      · exact hds c' h1

/-- `Date.now().toString()` (decimal rendering of a natural number) is never
the literal `"source"`, so a generated iteration id never collides with the
distinguished source selector. -/
theorem repr_ne_source (n : Nat) : Nat.repr n ≠ "source" := by
  intro h
  have hs : 's' ∈ Nat.toDigits 10 n := by
    have hd : (Nat.repr n).data = "source".data := by rw [h]
    have he : (Nat.repr n).data = Nat.toDigits 10 n := rfl
    rw [he] at hd
    rw [hd]
    decide
  have := toDigitsCore_isDigit (n + 1) n [] (by simp) 's' hs
  exact absurd this (by decide)

/-- If no part of the list has a truthy `inlineData`, the scan finds
nothing. -/
theorem findSome_inlineData_eq_none (l : List RespPart)
    (h : ∀ p ∈ l, p.inlineData = none) :
    l.findSome? (fun p => p.inlineData) = none := by
  induction l with
  | nil => rfl
  | cons p rest ih =>
    rw [List.findSome?_cons, h p (List.mem_cons_self _ _)]
    exact ih fun q hq => h q (List.mem_cons_of_mem _ hq)

/-- The scan returns the `inlineData` of the first part that has one. -/
theorem findSome_inlineData_first (l : List RespPart) (i : Nat)
    (h : i < l.length) (d : InlineData)
    (hi : (l.get ⟨i, h⟩).inlineData = some d)
    (hfirst : ∀ (j : Nat) (hj : j < i),
      (l.get ⟨j, Nat.lt_trans hj h⟩).inlineData = none) :
    l.findSome? (fun p => p.inlineData) = some d := by
  induction l generalizing i with
  | nil => exact absurd h (Nat.not_lt_zero _)
  | cons p rest ih =>
    rw [List.findSome?_cons]
    cases i with
    | zero =>
      have hp : p.inlineData = some d := hi
      rw [hp]
    | succ k =>
      have h0 : p.inlineData = none := hfirst 0 (Nat.succ_pos k)
      rw [h0]
      refine ih k (Nat.lt_of_succ_lt_succ h) hi ?_
      intro j hj
      exact hfirst (j + 1) (Nat.succ_lt_succ hj)

/-- Splitting at a character that does not occur returns the whole list as
the single segment. -/
theorem splitChar_eq_single (sep : Char) (l : List Char) (h : sep ∉ l) :
    splitChar sep l = [l] := by
  induction l with
  | nil => rfl
  | cons c rest ih =>
    have hc : c ≠ sep := fun hcs => h (hcs ▸ List.mem_cons_self _ _)
    have hrest : sep ∉ rest := fun hm => h (List.mem_cons_of_mem _ hm)
    rw [splitChar, ih hrest]
    simp [hc]

/-! ## Claim theorems: Generation Client -/

/-- C2: for every response the Generation Client receives: zero candidates
(absent or empty `candidates`) fails with `NoCandidatesError`; a first
candidate whose parts contain no inline-image part fails with
`NoImageInResponseError`; otherwise the client returns the first inline
image payload of the first candidate, re-encoded as a data-URI string
whose mime type is exactly the part's declared mime type. -/
theorem generateImage_response_spec :
    (∀ r : GenResponse, r.candidates = none ∨ r.candidates = some [] →
      extractImage r = .error .noCandidates) ∧
    (∀ (c : Candidate) (cs : List Candidate),
      (∀ p ∈ c.content.parts.getD [], p.inlineData = none) →
      extractImage ⟨some (c :: cs)⟩ = .error .noImageInResponse) ∧
    (∀ (c : Candidate) (cs : List Candidate) (i : Nat)
      (h : i < (c.content.parts.getD []).length) (m d : String),
      ((c.content.parts.getD []).get ⟨i, h⟩).inlineData = some ⟨m, some d⟩ →
      (∀ (j : Nat) (hj : j < i),
        ((c.content.parts.getD []).get ⟨j, Nat.lt_trans hj h⟩).inlineData = none) →
      extractImage ⟨some (c :: cs)⟩ = .ok ("data:" ++ m ++ ";base64," ++ d)) := by
  have hcons : ∀ (c : Candidate) (cs : List Candidate),
      extractImage ⟨some (c :: cs)⟩ =
        match (c.content.parts.getD []).findSome? (fun p => p.inlineData) with
        | some d => .ok ("data:" ++ d.mimeType ++ ";base64," ++ jsStr d.data)
        | none => .error .noImageInResponse := fun _ _ => rfl
  refine ⟨?_, ?_, ?_⟩
  · rintro r (h | h) <;> simp [extractImage, h]
  · intro c cs hnone
    rw [hcons, findSome_inlineData_eq_none _ hnone]
  · intro c cs i h m d hi hfirst
    rw [hcons, findSome_inlineData_first _ i h ⟨m, some d⟩ hi hfirst]
    rfl

/-- Witness for C2: each of the three cases evaluated on a concrete
response. -/
theorem generateImage_response_spec_witness :
    extractImage ⟨none⟩ = .error .noCandidates ∧
    extractImage ⟨some [⟨⟨some [⟨none, some "just text"⟩]⟩⟩]⟩ =
      .error .noImageInResponse ∧
    extractImage ⟨some [⟨⟨some [⟨none, some "t"⟩,
        ⟨some ⟨"image/png", some "AA"⟩, none⟩]⟩⟩]⟩ =
      .ok ("data:" ++ "image/png" ++ ";base64," ++ "AA") := by
  refine ⟨generateImage_response_spec.1 ⟨none⟩ (Or.inl rfl),
          generateImage_response_spec.2.1 _ [] (by decide), ?_⟩
  exact generateImage_response_spec.2.2
    ⟨⟨some [⟨none, some "t"⟩, ⟨some ⟨"image/png", some "AA"⟩, none⟩]⟩⟩ [] 1
    (by decide) "image/png" "AA" (by decide)
    (fun j hj => by
      have hj0 : j = 0 := by omega
      subst hj0
      rfl)

/-- C9: with a decodable (data-URI shaped) `baseImage`, the client submits
exactly one request, against the fixed model identifier, whose part list is
one inline-image part carrying the decoded mime type and base64 payload
followed by exactly one text part carrying the prompt; with no `baseImage`
the single request carries only the text part. -/
theorem generateImage_request_spec (p : String)
    (respond : GenRequest → GenResponse) :
    (∀ (b m : String) (d : Option String), b ≠ "" →
      splitBaseImage b = some (m, d) →
      (generateImage p (some b) respond).1 =
        [⟨"gemini-2.5-flash-image", [.inline d m, .text p]⟩]) ∧
    (generateImage p none respond).1 =
      [⟨"gemini-2.5-flash-image", [.text p]⟩] := by
  constructor
  · intro b m d hb hsplit
    have ht : truthyS (some b) = true := by
      simp [truthyS, hb]
    simp [generateImage, buildParts, ht, hsplit]
  · simp [generateImage, buildParts, truthyS]

/-- Witness for C9: a concrete data-URI base image yields the concrete
two-part request. -/
theorem generateImage_request_spec_witness :
    (generateImage "add plants" (some "data:image/png;base64,AAA")
        (fun _ => ⟨none⟩)).1 =
      [⟨"gemini-2.5-flash-image",
        [.inline (some "AAA") "image/png", .text "add plants"]⟩] :=
  (generateImage_request_spec "add plants" (fun _ => ⟨none⟩)).1
    "data:image/png;base64,AAA" "image/png" (some "AAA")
    (by decide) (by decide)

/-- C10: the base-image decoding is partial: for every non-empty `baseImage`
whose segment before the first `','` contains no `':'`, `generateImage`
throws from the string parsing itself (`prefix.split(':')[1]` is
`undefined`), before any request is submitted, and the failure is outside
the documented taxonomy (distinct from `NoCandidatesError` and
`NoImageInResponseError`). -/
theorem generateImage_parse_throw (p b : String)
    (respond : GenRequest → GenResponse) (hb : b ≠ "")
    (hcolon : ':' ∉ ((jsSplit b ',').headD "").data) :
    generateImage p (some b) respond = ([], .error .parseError) ∧
    GenError.parseError ≠ GenError.noCandidates ∧
    GenError.parseError ≠ GenError.noImageInResponse := by
  refine ⟨?_, by decide, by decide⟩
  have hsingle : jsSplit ((jsSplit b ',').headD "") ':' =
      [((jsSplit b ',').headD "")] := by
    rw [jsSplit, splitChar_eq_single _ _ hcolon]
    rfl
  have hsplit : splitBaseImage b = none := by
    rw [splitBaseImage]
    simp only [hsingle]
    rfl
  have ht : truthyS (some b) = true := by simp [truthyS, hb]
  simp [generateImage, buildParts, ht, hsplit]

/-- Witness for C10: the concrete input `"not-a-data-uri"` makes the client
fail from parsing with no request submitted. -/
theorem generateImage_parse_throw_witness :
    generateImage "x" (some "not-a-data-uri") (fun _ => ⟨none⟩) =
      ([], .error .parseError) :=
  (generateImage_parse_throw "x" "not-a-data-uri" (fun _ => ⟨none⟩)
    (by decide) (by decide)).1

/-! ## Claim theorems: Iteration Store -/

/-- C1: every successful generation call creates exactly one new iteration
and prepends it (the list grows by exactly one, with the new iteration at
the front), sets the active selection to the new iteration's id, and gives
it `parentId` equal to the selection active when the call began (absent
when nothing was selected).  The hypothesis `s.activeId ≠ some ""` records
that the selection is never the empty string (it is only ever `null`,
`"source"`, or an iteration id). -/
theorem handleGenerate_success_spec (s : AppState) (url : String)
    (n1 n2 : Nat) (hp : jsTrim s.prompt ≠ "") (ha : s.activeId ≠ some "") :
    ∃ newIt : DesignIteration,
      (handleGenerate s (.ok url) n1 n2).1.iterations = newIt :: s.iterations ∧
      (handleGenerate s (.ok url) n1 n2).1.iterations.length =
        s.iterations.length + 1 ∧
      (handleGenerate s (.ok url) n1 n2).1.activeId = some newIt.id ∧
      newIt.parentId = s.activeId ∧ newIt.imageUrl = url ∧
      newIt.prompt = s.prompt := by
  have hpar : (if truthyS s.activeId then s.activeId else none) = s.activeId := by
    cases hA : s.activeId with
    | none => rfl
    | some a =>
      have hane : a ≠ "" := fun hh => ha (by rw [hA, hh])
      simp [truthyS, hane]
  refine ⟨{ id := Nat.repr n1, imageUrl := url, prompt := s.prompt,
            timestamp := n2, parentId := s.activeId },
          ?_, ?_, ?_, rfl, rfl, rfl⟩ <;>
    simp [handleGenerate, hp, hpar]

/-- Witness for C1 at a concrete state with the source selected. -/
theorem handleGenerate_success_spec_witness :
    ∃ newIt : DesignIteration,
      (handleGenerate
        ⟨some "imgA", [], some "source", "Add plants", false, none⟩
        (.ok "imgB") 7 7).1.iterations = newIt :: ([] : List DesignIteration) ∧
      (handleGenerate
        ⟨some "imgA", [], some "source", "Add plants", false, none⟩
        (.ok "imgB") 7 7).1.iterations.length =
          ([] : List DesignIteration).length + 1 ∧
      (handleGenerate
        ⟨some "imgA", [], some "source", "Add plants", false, none⟩
        (.ok "imgB") 7 7).1.activeId = some newIt.id ∧
      newIt.parentId = some "source" ∧ newIt.imageUrl = "imgB" ∧
      newIt.prompt = "Add plants" :=
  handleGenerate_success_spec
    ⟨some "imgA", [], some "source", "Add plants", false, none⟩
    "imgB" 7 7 (by decide) (by decide)

/-- C3: a generation attempt with an empty or whitespace-only prompt never
invokes the Generation Client, surfaces the validation message, and leaves
the store (source image, iteration list, active selection) unchanged. -/
theorem handleGenerate_emptyPrompt_spec (s : AppState)
    (r : Except String String) (n1 n2 : Nat) (hp : jsTrim s.prompt = "") :
    (handleGenerate s r n1 n2).2 = none ∧
    (handleGenerate s r n1 n2).1.sourceImage = s.sourceImage ∧
    (handleGenerate s r n1 n2).1.iterations = s.iterations ∧
    (handleGenerate s r n1 n2).1.activeId = s.activeId ∧
    (handleGenerate s r n1 n2).1.error = some "Please enter a prompt." := by
  refine ⟨?_, ?_, ?_, ?_, ?_⟩ <;> simp [handleGenerate, hp]

/-- Witness for C3 at a whitespace-only prompt. -/
theorem handleGenerate_emptyPrompt_spec_witness :
    (handleGenerate ⟨some "imgA", [], some "source", "   ", false, none⟩
        (.ok "imgB") 7 7).2 = none ∧
    (handleGenerate ⟨some "imgA", [], some "source", "   ", false, none⟩
        (.ok "imgB") 7 7).1.sourceImage = some "imgA" ∧
    (handleGenerate ⟨some "imgA", [], some "source", "   ", false, none⟩
        (.ok "imgB") 7 7).1.iterations = [] ∧
    (handleGenerate ⟨some "imgA", [], some "source", "   ", false, none⟩
        (.ok "imgB") 7 7).1.activeId = some "source" ∧
    (handleGenerate ⟨some "imgA", [], some "source", "   ", false, none⟩
        (.ok "imgB") 7 7).1.error = some "Please enter a prompt." :=
  handleGenerate_emptyPrompt_spec
    ⟨some "imgA", [], some "source", "   ", false, none⟩
    (.ok "imgB") 7 7 (by decide)

/-- C4: when the Generation Client call throws, the store is not mutated
(iteration list, source image and active selection keep their values), and
the `generating` flag is cleared on the failure path as well as on the
success path. -/
theorem handleGenerate_failure_spec (s : AppState) (msg : String)
    (n1 n2 : Nat) (hp : jsTrim s.prompt ≠ "") :
    (handleGenerate s (.error msg) n1 n2).1.iterations = s.iterations ∧
    (handleGenerate s (.error msg) n1 n2).1.sourceImage = s.sourceImage ∧
    (handleGenerate s (.error msg) n1 n2).1.activeId = s.activeId ∧
    (handleGenerate s (.error msg) n1 n2).1.isGenerating = false ∧
    ∀ url, (handleGenerate s (.ok url) n1 n2).1.isGenerating = false := by
  refine ⟨?_, ?_, ?_, ?_, fun url => ?_⟩ <;> simp [handleGenerate, hp]

/-- Witness for C4 at a concrete failing call. -/
theorem handleGenerate_failure_spec_witness :
    (handleGenerate ⟨some "imgA", [], some "source", "Add plants", true, none⟩
        (.error "quota") 7 7).1.iterations = [] ∧
    (handleGenerate ⟨some "imgA", [], some "source", "Add plants", true, none⟩
        (.error "quota") 7 7).1.sourceImage = some "imgA" ∧
    (handleGenerate ⟨some "imgA", [], some "source", "Add plants", true, none⟩
        (.error "quota") 7 7).1.activeId = some "source" ∧
    (handleGenerate ⟨some "imgA", [], some "source", "Add plants", true, none⟩
        (.error "quota") 7 7).1.isGenerating = false ∧
    ∀ url,
      (handleGenerate ⟨some "imgA", [], some "source", "Add plants", true, none⟩
        (.ok url) 7 7).1.isGenerating = false :=
  handleGenerate_failure_spec
    ⟨some "imgA", [], some "source", "Add plants", true, none⟩
    "quota" 7 7 (by decide)

/-- C5: `clearSourceImage` removes the source image and deletes no
iteration; if the source was the active selection, it reselects the most
recently added iteration (the front of the newest-first list) when any
exist, and `null` when none exist — in which case the resolved active image
is empty. -/
theorem clearSource_spec (s : AppState) :
    (clearSourceImage s).sourceImage = none ∧
    (clearSourceImage s).iterations = s.iterations ∧
    (s.activeId = some "source" →
      (s.iterations = [] → (clearSourceImage s).activeId = none ∧
        activeImageUrl (clearSourceImage s) = none) ∧
      ∀ it l, s.iterations = it :: l →
        (clearSourceImage s).activeId = some it.id) := by
  refine ⟨?_, ?_, fun hsrc => ⟨fun hnil => ⟨?_, ?_⟩, fun it l hcons => ?_⟩⟩
  · simp only [clearSourceImage]
    split <;> rfl
  · simp only [clearSourceImage]
    split <;> rfl
  · simp [clearSourceImage, hsrc, hnil]
  · simp [clearSourceImage, activeImageUrl, hsrc, hnil]
  · simp [clearSourceImage, hsrc, hcons]

/-- Witness for C5: clearing with the source active and no iterations
empties both the selection and the resolved image. -/
theorem clearSource_spec_witness :
    (clearSourceImage ⟨some "imgA", [], some "source", "", false, none⟩).sourceImage
        = none ∧
    (clearSourceImage ⟨some "imgA", [], some "source", "", false, none⟩).iterations
        = [] ∧
    (some "source" = some "source" →
      (([] : List DesignIteration) = [] →
        (clearSourceImage
            ⟨some "imgA", [], some "source", "", false, none⟩).activeId = none ∧
        activeImageUrl
          (clearSourceImage ⟨some "imgA", [], some "source", "", false, none⟩)
            = none) ∧
      ∀ it l, ([] : List DesignIteration) = it :: l →
        (clearSourceImage
            ⟨some "imgA", [], some "source", "", false, none⟩).activeId
          = some it.id) :=
  clearSource_spec ⟨some "imgA", [], some "source", "", false, none⟩

/-- C6: immediately after a successful generation (a valid, non-empty image
payload), the resolved active image is exactly the image just added. -/
theorem activeImage_after_generate (s : AppState) (url : String)
    (n1 n2 : Nat) (hp : jsTrim s.prompt ≠ "") (hurl : url ≠ "") :
    activeImageUrl (handleGenerate s (.ok url) n1 n2).1 = some url := by
  simp [handleGenerate, hp, activeImageUrl, repr_ne_source n1, List.find?,
    hurl]

/-- Witness for C6 at a concrete successful generation. -/
theorem activeImage_after_generate_witness :
    activeImageUrl
      (handleGenerate ⟨some "imgA", [], some "source", "Add plants", false, none⟩
        (.ok "imgB") 7 7).1 = some "imgB" :=
  activeImage_after_generate
    ⟨some "imgA", [], some "source", "Add plants", false, none⟩
    "imgB" 7 7 (by decide) (by decide)

/-! ## Store invariants (C7, C8) -/

/-- Some iteration of `l` carries id `a`. -/
def idExists (l : List DesignIteration) (a : String) : Prop :=
  ∃ it ∈ l, it.id = a

/-- Every present `parentId` in the (newest-first) list refers to the
distinguished source or to an iteration strictly later in the list, i.e. to
a node created strictly earlier. -/
def ParentInv (l : List DesignIteration) : Prop :=
  ∀ (i : Nat) (h : i < l.length) (p : String),
    (l.get ⟨i, h⟩).parentId = some p →
    p = "source" ∨
      ∃ (j : Nat) (hj : j < l.length), i < j ∧ (l.get ⟨j, hj⟩).id = p

/-- `y` is a parent of `x` under id-reference resolution within `l`. -/
def ParentRel (l : List DesignIteration) (x y : DesignIteration) : Prop :=
  x ∈ l ∧ y ∈ l ∧ x.parentId = some y.id

/-- The store invariant maintained by every UI transition: the active
selection is the source or an existing iteration id, no iteration id is the
literal `"source"`, and parent references point to strictly older nodes. -/
def StoreInv (s : AppState) : Prop :=
  (∀ a, s.activeId = some a → a = "source" ∨ idExists s.iterations a) ∧
  (∀ it ∈ s.iterations, it.id ≠ "source") ∧
  ParentInv s.iterations

theorem clearSourceImage_iterations (s : AppState) :
    (clearSourceImage s).iterations = s.iterations := by
  simp only [clearSourceImage]
  split <;> rfl

theorem clearSourceImage_activeId (s : AppState) :
    (clearSourceImage s).activeId =
      if s.activeId == some "source" then
        (match s.iterations with
         | [] => none
         | it :: _ => some it.id)
      else s.activeId := by
  simp only [clearSourceImage]
  split <;> simp_all

/-- Every reachable state satisfies the store invariant. -/
theorem storeInv_reachable (s : AppState) (h : Reachable s) : StoreInv s := by
  induction h with
  | init =>
    refine ⟨?_, ?_, ?_⟩
    · intro a ha
      simp [initState] at ha
    · intro it hit
      simp [initState] at hit
    · intro i hi
      simp [initState] at hi
  | step hr hs ih =>
    obtain ⟨ihA, ihS, ihP⟩ := ih
    rename_i s s'
    cases hs with
    | upload img =>
      refine ⟨?_, ihS, ihP⟩
      intro a ha
      simp at ha
      exact Or.inl ha.symm
    | clearSource =>
      refine ⟨?_, ?_, ?_⟩
      · intro a ha
        rw [clearSourceImage_activeId] at ha
        rw [clearSourceImage_iterations]
        by_cases hcond : (s.activeId == some "source") = true
        · rw [if_pos hcond] at ha
          cases hl : s.iterations with
          | nil => rw [hl] at ha; cases ha
          | cons it rest =>
            rw [hl] at ha
            simp at ha
            exact Or.inr ⟨it, List.mem_cons_self _ _, ha⟩
        · rw [if_neg hcond] at ha
          exact ihA a ha
      · rw [clearSourceImage_iterations]; exact ihS
      · rw [clearSourceImage_iterations]; exact ihP
    | generate g n1 n2 =>
      by_cases hp : jsTrim s.prompt = ""
      · have h1 : (handleGenerate s g n1 n2).1.iterations = s.iterations := by
          simp [handleGenerate, hp]
        have h2 : (handleGenerate s g n1 n2).1.activeId = s.activeId := by
          simp [handleGenerate, hp]
        exact ⟨fun a ha => by rw [h1]; exact ihA a (h2 ▸ ha),
               by rw [h1]; exact ihS, by rw [h1]; exact ihP⟩
      · cases g with
        | error msg =>
          have h1 : (handleGenerate s (.error msg) n1 n2).1.iterations =
              s.iterations := by simp [handleGenerate, hp]
          have h2 : (handleGenerate s (.error msg) n1 n2).1.activeId =
              s.activeId := by simp [handleGenerate, hp]
          exact ⟨fun a ha => by rw [h1]; exact ihA a (h2 ▸ ha),
                 by rw [h1]; exact ihS, by rw [h1]; exact ihP⟩
        | ok url =>
          have h1 : (handleGenerate s (.ok url) n1 n2).1.iterations =
              { id := Nat.repr n1, imageUrl := url, prompt := s.prompt,
                timestamp := n2,
                parentId := if truthyS s.activeId then s.activeId else none } ::
                s.iterations := by
            simp [handleGenerate, hp]
          have h2 : (handleGenerate s (.ok url) n1 n2).1.activeId =
              some (Nat.repr n1) := by
            simp [handleGenerate, hp]
          rw [StoreInv, h1, h2]
          refine ⟨?_, ?_, ?_⟩
          · intro a ha
            simp at ha
            exact Or.inr ⟨_, List.mem_cons_self _ _, ha⟩
          · intro it hit
            rcases List.mem_cons.mp hit with h | h
            · rw [h]
              exact repr_ne_source n1
            · exact ihS it h
          · intro i hi p hpar
            cases i with
            | zero =>
              have hN : (if truthyS s.activeId then s.activeId else none) =
                  some p := hpar
              by_cases htr : truthyS s.activeId
              · rw [if_pos htr] at hN
                rcases ihA p hN with hsrc | ⟨it, hmem, hid⟩
                · exact Or.inl hsrc
                · rcases List.mem_iff_get.mp hmem with ⟨⟨j, hj⟩, hget⟩
                  refine Or.inr ⟨j + 1, Nat.succ_lt_succ hj, Nat.succ_pos _, ?_⟩
                  have : (s.iterations.get ⟨j, hj⟩).id = p := by
                    rw [hget, hid]
                  exact this
              · rw [if_neg htr] at hN
                cases hN
            | succ k =>
              have hk : k < s.iterations.length := Nat.lt_of_succ_lt_succ hi
              rcases ihP k hk p hpar with hsrc | ⟨j, hj, hkj, hid⟩
              · exact Or.inl hsrc
              · exact Or.inr ⟨j + 1, Nat.succ_lt_succ hj,
                  Nat.succ_lt_succ hkj, hid⟩
    | selectSource =>
      refine ⟨?_, ihS, ihP⟩
      intro a ha
      simp at ha
      exact Or.inl ha.symm
    | selectIteration it hmem =>
      refine ⟨?_, ihS, ihP⟩
      intro a ha
      simp at ha
      exact Or.inr ⟨it, hmem, ha⟩
    | setPrompt p =>
      exact ⟨ihA, ihS, ihP⟩

/-- Positions with equal images under `f` coincide when `l.map f` has no
duplicates. -/
theorem nodup_map_index_eq {α β : Type _} (f : α → β) (l : List α)
    (hnd : (l.map f).Nodup) (i j : Nat) (hi : i < l.length)
    (hj : j < l.length)
    (h : f (l.get ⟨i, hi⟩) = f (l.get ⟨j, hj⟩)) : i = j := by
  have hi' : i < (l.map f).length := by simpa using hi
  have hj' : j < (l.map f).length := by simpa using hj
  have hg : (l.map f).get ⟨i, hi'⟩ = (l.map f).get ⟨j, hj'⟩ := by
    simp only [List.get_eq_getElem, List.getElem_map]
    exact h
  have := hnd.get_inj_iff.mp hg
  simpa using this

/-- With no duplicate ids, a parent reference resolves to an iteration
strictly later in the newest-first list: the parent relation strictly
increases the list index. -/
theorem parentRel_indexOf_lt (l : List DesignIteration)
    (hnd : (l.map DesignIteration.id).Nodup)
    (hsrc : ∀ it ∈ l, it.id ≠ "source") (hinv : ParentInv l)
    (x y : DesignIteration) (hxy : ParentRel l x y) :
    l.indexOf x < l.indexOf y := by
  obtain ⟨hx, hy, hpar⟩ := hxy
  have hxlen : l.indexOf x < l.length := List.indexOf_lt_length.mpr hx
  have hylen : l.indexOf y < l.length := List.indexOf_lt_length.mpr hy
  have hgx : l.get ⟨l.indexOf x, hxlen⟩ = x := List.indexOf_get hxlen
  have hgy : l.get ⟨l.indexOf y, hylen⟩ = y := List.indexOf_get hylen
  rcases hinv (l.indexOf x) hxlen y.id (by rw [hgx]; exact hpar) with
    hsy | ⟨j, hj, hij, hid⟩
  · exact absurd hsy (hsrc y hy)
  · have hj_eq : j = l.indexOf y := by
      refine nodup_map_index_eq DesignIteration.id l hnd j (l.indexOf y)
        hj hylen ?_
      rw [hid, hgy]
    rw [← hj_eq]
    exact hij

/-- With no duplicate ids, the parent relation has no cycle: no iteration
is its own strict ancestor. -/
theorem parentRel_acyclic (l : List DesignIteration)
    (hnd : (l.map DesignIteration.id).Nodup)
    (hsrc : ∀ it ∈ l, it.id ≠ "source") (hinv : ParentInv l)
    (it : DesignIteration) :
    ¬ Relation.TransGen (ParentRel l) it it := by
  intro hcyc
  have hmono : ∀ a b : DesignIteration,
      Relation.TransGen (ParentRel l) a b → l.indexOf a < l.indexOf b := by
    intro a b hab
    induction hab with
    | single h => exact parentRel_indexOf_lt l hnd hsrc hinv _ _ h
    | tail hab hbc ihab =>
      exact Nat.lt_trans ihab (parentRel_indexOf_lt l hnd hsrc hinv _ _ hbc)
  exact absurd (hmono it it hcyc) (Nat.lt_irrefl _)

/-- C7 (amended): in every reachable state, an active iteration id exists
in the iteration set, and every present `parentId` refers to a node that
existed when the iteration was created — the source or an iteration
strictly later in the newest-first list.  Provided the iteration ids are
pairwise distinct, the id-resolved parent references therefore contain no
cycle.  (Without that proviso the duplicate-id counterexample below
exhibits a reachable self-referential iteration.) -/
theorem iteration_graph_invariant (s : AppState) (h : Reachable s) :
    (∀ a, s.activeId = some a → a = "source" ∨ idExists s.iterations a) ∧
    ParentInv s.iterations ∧
    ((s.iterations.map DesignIteration.id).Nodup →
      ∀ it, ¬ Relation.TransGen (ParentRel s.iterations) it it) := by
  obtain ⟨hA, hS, hP⟩ := storeInv_reachable s h
  exact ⟨hA, hP, fun hnd it => parentRel_acyclic _ hnd hS hP it⟩

/-! ## Duplicate-timestamp run (counterexamples for C7 and C8) -/

/-- The initial state after typing a prompt. -/
def promptedState : AppState := { initState with prompt := "p" }

/-- One successful generation observed at `Date.now() = 5`. -/
def genOnce : AppState := (handleGenerate promptedState (.ok "imgA") 5 5).1

/-- A second successful generation in the same millisecond
(`Date.now() = 5` again). -/
def genTwice : AppState := (handleGenerate genOnce (.ok "imgB") 5 5).1

theorem genOnce_reachable : Reachable genOnce :=
  .step (.step .init (.setPrompt "p")) (.generate (.ok "imgA") 5 5)

theorem genTwice_reachable : Reachable genTwice :=
  .step genOnce_reachable (.generate (.ok "imgB") 5 5)

/-- Witness for C7 at the concrete reachable state `genOnce` (whose single
iteration id `"5"` is trivially duplicate-free). -/
theorem iteration_graph_invariant_witness :
    (∀ a, genOnce.activeId = some a →
      a = "source" ∨ idExists genOnce.iterations a) ∧
    ParentInv genOnce.iterations ∧
    ((genOnce.iterations.map DesignIteration.id).Nodup →
      ∀ it, ¬ Relation.TransGen (ParentRel genOnce.iterations) it it) :=
  iteration_graph_invariant genOnce genOnce_reachable

/-- Counterexample to C7 as stated: two successful generations in the same
millisecond reach a state whose newest iteration has `parentId` equal to
its own id, and the store's own id-resolution (`find?` over the
newest-first list) resolves that parent reference to the iteration itself —
a cycle in the id-reference structure. -/
theorem parent_cycle_counterexample :
    Reachable genTwice ∧
    genTwice.iterations.map (fun it => (it.id, it.parentId)) =
      [("5", some "5"), ("5", none)] ∧
    genTwice.iterations.find?
        (fun i => some i.id ==
          (genTwice.iterations.headD ⟨"", "", "", 0, none⟩).parentId) =
      genTwice.iterations.head? := by
  refine ⟨genTwice_reachable, by decide, by decide⟩

/-- C8 (amended): every new iteration is constructed with id equal to the
`Date.now()` value observed for it rendered in decimal and with the other
`Date.now()` sample as its timestamp; the id is distinct from every id
already in the store **provided** no stored iteration already carries that
rendered value (which holds when successive calls observe distinct clock
values, but is not guaranteed by the code itself). -/
theorem newIteration_id_spec (s : AppState) (url : String) (n1 n2 : Nat)
    (hp : jsTrim s.prompt ≠ "")
    (hfresh : ∀ it ∈ s.iterations, it.id ≠ Nat.repr n1) :
    ∃ newIt : DesignIteration,
      (handleGenerate s (.ok url) n1 n2).1.iterations = newIt :: s.iterations ∧
      newIt.id = Nat.repr n1 ∧ newIt.timestamp = n2 ∧
      ∀ it ∈ s.iterations, it.id ≠ newIt.id := by
  refine ⟨{ id := Nat.repr n1, imageUrl := url, prompt := s.prompt,
            timestamp := n2,
            parentId := if truthyS s.activeId then s.activeId else none },
          ?_, rfl, rfl, hfresh⟩
  simp [handleGenerate, hp]

/-- Witness for C8's amended statement at a concrete fresh-timestamp
call. -/
theorem newIteration_id_spec_witness :
    ∃ newIt : DesignIteration,
      (handleGenerate genOnce (.ok "imgB") 6 6).1.iterations =
        newIt :: genOnce.iterations ∧
      newIt.id = Nat.repr 6 ∧ newIt.timestamp = 6 ∧
      ∀ it ∈ genOnce.iterations, it.id ≠ newIt.id :=
  newIteration_id_spec genOnce "imgB" 6 6 (by decide)
    (fun it hit => by
      have hl : genOnce.iterations =
          [{ id := "5", imageUrl := "imgA", prompt := "p", timestamp := 5,
             parentId := none }] := by decide
      rw [hl] at hit
      rw [List.mem_singleton] at hit
      subst hit
      decide)

/-- Counterexample to C8 as stated: the id is `Date.now().toString()`, so a
second successful generation in the same millisecond reuses the stored
iteration's id — the reachable state `genTwice` holds two iterations both
with id `"5"`. -/
theorem duplicate_id_counterexample :
    Reachable genTwice ∧
    genTwice.iterations.map DesignIteration.id = ["5", "5"] ∧
    ¬ (genTwice.iterations.map DesignIteration.id).Nodup := by
  refine ⟨genTwice_reachable, by decide, by decide⟩

end Plan2Rendering
